import Mathlib

/-!
Verification of the crypton-bot portfolio engine.

This file gives a shallow embedding, over the rationals, of the pure
decision logic of the repository's portfolio components:

* `Rebalancer.calculate_rebalance_trades` and `Rebalancer.execute_rebalance`
  (src/app/portfolio/components/rebalancer.py), together with the
  quantity rounding rules of
  `QuantityCalculator` (src/app/portfolio/components/quantity_calculator.py);
* `AllocationCalculator.calculate_optimal_allocation`,
  `AllocationCalculator._get_default_allocation` and
  `AllocationCalculator.check_significant_deviation`
  (src/app/portfolio/components/allocation_calculator.py);
* `PortfolioOptimizer.calculate_optimal_allocation` and
  `PortfolioOptimizer._optimize_portfolio`
  (src/app/services/portfolio_optimizer.py);
* the rebalance trigger of `PortfolioManager.check_and_rebalance_if_needed`
  (src/app/portfolio/manager.py);
* `MarketCycleDetector.detect_market_cycle` (src/app/market_cycles/detector.py)
  and `MarketCycleIntegrator.update_market_cycle`
  (src/app/market_cycles/integrator.py).

Python floats are modelled as rationals; Python dicts are modelled as
insertion-ordered association lists (`Dict`), matching CPython dict
semantics (updates keep the position of an existing key, new keys are
appended).  External effects (Binance prices, the SQLite asset store,
account balances, `scipy.optimize.minimize`, the cycle scoring pipeline)
enter the embedding as explicit function arguments, so every theorem
below quantifies over all possible behaviours of those dependencies.
-/

/-! ## Python dictionaries as insertion-ordered association lists -/

/-- A Python `dict` with `String` keys, as an insertion-ordered association
list.  All operations below preserve the no-duplicate-keys property that
CPython dicts enjoy. -/
abbrev Dict (α : Type) := List (String × α)

/-- `d[k]` / `d.get(k)`: first value stored under key `k`. -/
def dget {α : Type} : Dict α → String → Option α
  | [], _ => none
  | (k', v) :: rest, k => if k' = k then some v else dget rest k

/-- `d[k] = v`: update the value of an existing key in place, or append a
new binding at the end, exactly as CPython dicts do. -/
def dset {α : Type} : Dict α → String → α → Dict α
  | [], k, v => [(k, v)]
  | (k', v') :: rest, k, v =>
      if k' = k then (k, v) :: rest else (k', v') :: dset rest k v

/-- Apply a function to every stored value (a Python dict comprehension
`{k: f(v) for k, v in d.items()}`). -/
def dmapVals {α β : Type} (f : α → β) (d : Dict α) : Dict β :=
  d.map fun p => (p.1, f p.2)

/-- `sum(d.values())`. -/
def dsum (d : Dict ℚ) : ℚ :=
  (d.map fun p => p.2).sum

/-! ## Trades and portfolio state -/

/-- The side of a rebalance trade (`trade['type']`). -/
inductive TradeSide where
  | sell
  | buy
deriving DecidableEq

/-- One entry of `state.current_assets[symbol]`: the fields the rebalancer
reads (`current_price` and `value_usdc`). -/
structure AssetInfo where
  currentPrice : ℚ
  valueUsdc : ℚ
deriving DecidableEq

/-- One planned rebalance operation, as built by
`Rebalancer.calculate_rebalance_trades`.  The traded pair is
`base ++ "USDC"`; `value` is `quantity * price`. -/
structure Trade where
  base : String
  side : TradeSide
  quantity : ℚ
  price : ℚ
  value : ℚ
deriving DecidableEq

/-- The slice of `PortfolioState` that `calculate_rebalance_trades` reads. -/
structure PState where
  targetAllocation : Dict ℚ
  currentAllocation : Dict ℚ
  currentAssets : Dict AssetInfo
  totalValue : ℚ
  usdcBalance : ℚ
deriving DecidableEq

/-! ## QuantityCalculator -/

namespace QuantityCalculator

/-- Round-half-to-even on rationals, the idealisation of Python's `round`
applied to a nonnegative number of decimals. -/
def roundHalfEven (x : ℚ) : ℤ :=
  let f : ℤ := ⌊x⌋
  let r : ℚ := x - f
  if r < 1/2 then f
  else if r > 1/2 then f + 1
  else if f % 2 = 0 then f else f + 1

/-- Python `round(x, k)`. -/
def pyRound (x : ℚ) (k : ℕ) : ℚ :=
  (roundHalfEven (x * 10 ^ k) : ℚ) / 10 ^ k

/-- Python `int(x)`: truncation toward zero. -/
def pyTrunc (x : ℚ) : ℤ :=
  if 0 ≤ x then ⌊x⌋ else -⌊-x⌋

/-- `QuantityCalculator.calculate_buy_quantity`: quantity bought for
`usdcAmount` USDC at `price`, rounded per the price-tier rules. -/
def calculate_buy_quantity (price usdcAmount : ℚ) : ℚ :=
  if price ≤ 0 then 0
  else
    let quantity := usdcAmount / price
    if price ≥ 1000 then pyRound quantity 5
    else if price ≥ 100 then pyRound quantity 4
    else if price ≥ 1 then pyRound quantity 3
    else if price ≥ 1/10 then pyRound quantity 2
    else if price ≥ 1/100 then pyRound quantity 1
    else (pyTrunc quantity : ℚ)

/-- `QuantityCalculator.calculate_sell_quantity`: the buy-side rounding,
then capped to the free balance reported for the asset.  `free` stands for
the data provider's balance lookup; `none` covers "no data provider",
"asset not in the balance list" and a raised exception, in all of which
the quantity is left unchanged. -/
def calculate_sell_quantity (free : String → Option ℚ) (symbol : String)
    (price usdcAmount : ℚ) : ℚ :=
  let quantity := calculate_buy_quantity price usdcAmount
  match free symbol with
  | some avail => min quantity avail
  | none => quantity

end QuantityCalculator

/-! ## Rebalancer -/

namespace Rebalancer

/-- `self.min_profit_percentage = 0.01`. -/
def min_profit_percentage : ℚ := 1/100

/-- `self.min_asset_value = 1.0`. -/
def min_asset_value : ℚ := 1

/-- `self.min_buy_value = 5.0`. -/
def min_buy_value : ℚ := 5

/-- `state.total_value * target_weight` for every target entry. -/
def targetValues (st : PState) : Dict ℚ :=
  st.targetAllocation.map fun p => (p.1, st.totalValue * p.2)

/-- `state.total_value * allocation` for every current entry. -/
def currentValues (st : PState) : Dict ℚ :=
  st.currentAllocation.map fun p => (p.1, st.totalValue * p.2)

/-- Price resolution for a symbol: the stored `current_price` when present
and strictly positive (Python: `if not price or price <= 0`, refetch),
otherwise `data_manager.get_price(f"{symbol}USDC") or 0`. -/
def resolvePrice (assets : Dict AssetInfo) (getPrice : String → Option ℚ)
    (symbol : String) : ℚ :=
  match dget assets symbol with
  | some info =>
      if info.currentPrice ≤ 0 then (getPrice (symbol ++ "USDC")).getD 0
      else info.currentPrice
  | none => (getPrice (symbol ++ "USDC")).getD 0

/-- The profit-protection decision (`should_sell`).  `db` is the asset
store lookup by symbol, returning the stored `purchase_price`; `none`
covers both a missing record and a raised database error, in which cases
the Python flag keeps its initial `True`.  A stored price of zero raises
`ZeroDivisionError` inside the guarded block, which is caught, again
leaving the flag `True`. -/
def shouldSell (db : String → Option ℚ) (symbol : String) (price : ℚ) : Bool :=
  match db symbol with
  | some purchasePrice =>
      if purchasePrice = 0 then true
      else if (price - purchasePrice) / purchasePrice < min_profit_percentage then false
      else true
  | none => true

/-- One iteration of the sell loop of `calculate_rebalance_trades`, for an
entry `(symbol, currentValue)` of the current values: returns the planned
SELL trade, or `none` when any of the guards skips the symbol. -/
def sellCandidate (minOrderValue : ℚ) (tv : Dict ℚ) (assets : Dict AssetInfo)
    (getPrice db free : String → Option ℚ) (p : String × ℚ) : Option Trade :=
  if p.1 = "USDC" then none
  else
    let targetValue := (dget tv p.1).getD 0
    if p.2 > targetValue then
      let valueToSell := p.2 - targetValue
      if p.2 < min_asset_value then none
      else if valueToSell ≥ minOrderValue then
        let price := resolvePrice assets getPrice p.1
        if price > 0 then
          if shouldSell db p.1 price then
            let quantity := QuantityCalculator.calculate_sell_quantity free p.1 price valueToSell
            if quantity > 0 then
              some { base := p.1, side := .sell, quantity := quantity,
                     price := price, value := quantity * price }
            else none
          else none
        else none
      else none
    else none

/-- One iteration of the buy loop of `calculate_rebalance_trades`: the
accumulator carries the buys planned so far and the running
`usdc_available`. -/
def buyStep (minOrderValue : ℚ) (cv : Dict ℚ) (assets : Dict AssetInfo)
    (getPrice : String → Option ℚ) (acc : List Trade × ℚ) (p : String × ℚ) :
    List Trade × ℚ :=
  if p.1 = "USDC" then acc
  else
    let currentValue := (dget cv p.1).getD 0
    if currentValue < p.2 then
      let valueToBuy := p.2 - currentValue
      if valueToBuy < min_buy_value then acc
      else if valueToBuy ≥ minOrderValue ∧ acc.2 > 0 then
        let cappedValue := min valueToBuy acc.2
        let price := resolvePrice assets getPrice p.1
        if price > 0 then
          let quantity := QuantityCalculator.calculate_buy_quantity price cappedValue
          if quantity > 0 then
            (acc.1 ++ [{ base := p.1, side := .buy, quantity := quantity,
                         price := price, value := quantity * price }],
             acc.2 - quantity * price)
          else acc
        else acc
      else acc
    else acc

/-- `Rebalancer.calculate_rebalance_trades`.  `getPrice` stands for
`data_manager.get_price`, `db` for the asset-store purchase-price lookup
and `free` for the balance lookup used when capping sell quantities. -/
def calculate_rebalance_trades (minOrderValue : ℚ) (st : PState)
    (getPrice db free : String → Option ℚ) : List Trade :=
  if st.targetAllocation = [] then []
  else if st.currentAllocation = [] ∨ st.totalValue ≤ 0 then []
  else
    let tv := targetValues st
    let cv := currentValues st
    let sells := cv.filterMap (sellCandidate minOrderValue tv st.currentAssets getPrice db free)
    let usdcAfterSells := st.usdcBalance + (sells.map Trade.value).sum
    let usdcTarget := (dget tv "USDC").getD 0
    let usdcAvailable := usdcAfterSells - usdcTarget
    let buys := (tv.foldl (buyStep minOrderValue cv st.currentAssets getPrice) ([], usdcAvailable)).1
    sells ++ buys

/-- The submission order of `Rebalancer.execute_rebalance`: all SELL items
of the batch first, then all BUY items (`ordered_trades = sells + buys`). -/
def execution_order (trades : List Trade) : List Trade :=
  trades.filter (fun t => t.side = .sell) ++ trades.filter (fun t => t.side = .buy)

end Rebalancer

/-! ## AllocationCalculator -/

namespace AllocationCalculator

/-- A raw weight as handed back by the optimizer layer: a Python float
(`val`), `None` (`null`), a NaN, an infinity (`inf` / `ninf`), or a value
that cannot be converted to `float` (`bad`). -/
inductive Fl where
  | null
  | nan
  | inf
  | ninf
  | bad
  | val (q : ℚ)
deriving DecidableEq

/-- The per-weight sanitisation of `calculate_optimal_allocation`: `None`,
unconvertible values, NaN, infinities and negatives all become `0.0`;
finite nonnegative floats are kept. -/
def sanitizeWeight : Fl → ℚ
  | .val q => if q < 0 then 0 else q
  | _ => 0

/-- The optimizer's result, before sanitisation: either a dict
`{symbol: weight}` or a list/array of weights. -/
inductive OptResult where
  | dict (ws : List (String × Fl))
  | arr (ws : List Fl)
deriving DecidableEq

/-- `len(optimal_weights)`. -/
def optLen : OptResult → ℕ
  | .dict ws => ws.length
  | .arr ws => ws.length

/-- The dict branch: sanitise every weight, then give weight `0.0` to any
valid symbol that is still missing. -/
def processWeightsDict (validSymbols : List String) (ws : List (String × Fl)) : Dict ℚ :=
  let a := ws.foldl (fun a p => dset a p.1 (sanitizeWeight p.2)) []
  validSymbols.foldl (fun a s => if (dget a s).isNone then dset a s 0 else a) a

/-- The list branch: `allocation[valid_symbols[i]] = sanitised(weights[i])`
for every index `i` within range. -/
def processWeightsArr (validSymbols : List String) (ws : List Fl) : Dict ℚ :=
  validSymbols.enum.foldl
    (fun a p =>
      match ws[p.1]? with
      | some w => dset a p.2 (sanitizeWeight w)
      | none => a)
    []

/-- `cash_reserve = 0.05`. -/
def cash_reserve : ℚ := 1/20

/-- The tail of `calculate_optimal_allocation`: re-clean any negative
value, scale every weight by `1 - cash_reserve`, force the USDC reserve,
and normalise when the total is positive. -/
def finalizeAllocation (a : Dict ℚ) : Dict ℚ :=
  let a := dmapVals (fun q => if q < 0 then 0 else q) a
  let a := dmapVals (fun q => q * (1 - cash_reserve)) a
  let a := dset a "USDC" cash_reserve
  let total := dsum a
  if total > 0 then dmapVals (fun q => q / total) a else a

/-- The fixed market-cap default of `_get_default_allocation`. -/
def fixedDefaultAllocation : Dict ℚ :=
  [("BTC", 7/20), ("ETH", 1/4), ("BNB", 1/10), ("SOL", 1/20), ("USDC", 1/4)]

/-- Stable insertion of an asset into a value-descending list (ties keep
the earlier element first, as Python's stable `sorted` does). -/
def insertDesc (x : String × ℚ) : List (String × ℚ) → List (String × ℚ)
  | [] => [x]
  | y :: ys => if x.2 ≥ y.2 then x :: y :: ys else y :: insertDesc x ys

/-- `sorted(assets.items(), key=value_usdc, reverse=True)`: a stable sort
by descending `value_usdc`. -/
def sortAssetsDesc : List (String × ℚ) → List (String × ℚ)
  | [] => []
  | x :: xs => insertDesc x (sortAssetsDesc xs)

/-- `AllocationCalculator._get_default_allocation`, with `assets` carrying
each current asset's `value_usdc`. -/
def get_default_allocation (assets : Dict ℚ) : Dict ℚ :=
  if assets = [] then fixedDefaultAllocation
  else
    let sortedAssets := sortAssetsDesc assets
    if sortedAssets = [] then fixedDefaultAllocation
    else
      let totalValue := dsum sortedAssets
      let topAssets := sortedAssets.take 10
      let assetAllocation : ℚ := 3/4
      let a := topAssets.foldl
        (fun a p => if totalValue > 0 then dset a p.1 (p.2 / totalValue * assetAllocation) else a)
        []
      let a := dset a "USDC" (1/4)
      let total := dsum a
      if total > 0 then dmapVals (fun q => q / total) a else a

/-- `AllocationCalculator.calculate_optimal_allocation`.  `hasMarketData`
is the truthiness of `state.market_data`; `optResult` is whatever the
optimizer layer returned (`none` standing both for Python `None` and for
the except-path that falls back to the default allocation); `assets`
carries `state.current_assets` values. -/
def calculate_optimal_allocation (hasMarketData : Bool) (validSymbols : List String)
    (assets : Dict ℚ) (optResult : Option OptResult) : Dict ℚ :=
  if ¬hasMarketData ∨ validSymbols = [] then get_default_allocation assets
  else
    match optResult with
    | none => get_default_allocation assets
    | some r =>
        if optLen r = 0 then get_default_allocation assets
        else
          match r with
          | .dict ws => finalizeAllocation (processWeightsDict validSymbols ws)
          | .arr ws => finalizeAllocation (processWeightsArr validSymbols ws)

end AllocationCalculator

/-! ## Deviation check shared by the manager and the optimizer -/

/-- The maximum absolute deviation between current and target weight over
the symbols of the target allocation, missing current weights counting as
`0.0` (the loop shared by
`AllocationCalculator.check_significant_deviation` and
`PortfolioOptimizer._check_rebalance_needed`). -/
def max_deviation (current target : Dict ℚ) : ℚ :=
  target.foldl (fun m p => max m |((dget current p.1).getD 0) - p.2|) 0

/-- `AllocationCalculator.check_significant_deviation`: `False` when either
allocation is empty, otherwise compare the maximum deviation with the
threshold. -/
def check_significant_deviation (threshold : ℚ) (current target : Dict ℚ) : Bool :=
  if current = [] ∨ target = [] then false
  else decide (max_deviation current target > threshold)

/-- The rebalance trigger of `PortfolioManager.check_and_rebalance_if_needed`
(after a successful state update): a significant deviation, or a scheduled
hour not already served within the last hour
(`datetime.now() - datetime.fromtimestamp(last) > timedelta(hours=1)`,
i.e. strictly more than 3600 seconds). -/
def need_rebalance (threshold : ℚ) (current target : Dict ℚ) (hour : ℕ)
    (rebalanceHours : List ℕ) (lastRebalanceTime : Option ℤ) (now : ℤ) : Bool :=
  let significantDeviation := check_significant_deviation threshold current target
  let fresh : Bool :=
    match lastRebalanceTime with
    | none => true
    | some l => decide (now - l > 3600)
  let scheduled : Bool := decide (hour ∈ rebalanceHours) && fresh
  significantDeviation || scheduled

/-! ## PortfolioOptimizer -/

namespace PortfolioOptimizer

/-- Number of daily-return observations available for a symbol: one less
than the number of close prices (`closes.pct_change().dropna()`). -/
def numObs (priceData : Dict (List ℚ)) (s : String) : ℕ :=
  ((dget priceData s).getD []).length - 1

/-- The columns of `returns_df`: the symbols that occur in `price_data`
with a nonempty price series. -/
def dataCols (symbols : List String) (priceData : Dict (List ℚ)) : List String :=
  symbols.filter fun s => ((dget priceData s).getD []).length > 0

/-- `len(returns_df)`: pandas aligns the per-symbol return series on the
union of their indices, so the row count is the longest observation
count. -/
def numRows (symbols : List String) (priceData : Dict (List ℚ)) : ℕ :=
  ((dataCols symbols priceData).map (numObs priceData)).foldr max 0

/-- The equal-weight fallback `{symbol: 1.0/len(symbols)}` (with the
guarded weight `1.0` when `symbols` is empty, in which case the dict is
empty anyway). -/
def equalDict (symbols : List String) : Dict ℚ :=
  let w : ℚ := if symbols = [] then 1 else 1 / symbols.length
  symbols.foldl (fun a s => dset a s w) []

/-- `returns_df.cov()` is degenerate (has a NaN entry) exactly when some
column has fewer than two observations: pandas computes each entry over
the pairwise-complete rows, whose count for columns `i, j` is
`min(obs_i, obs_j)`, and yields NaN when that count is below 2. -/
def covDegenerate (symbols : List String) (priceData : Dict (List ℚ)) : Bool :=
  (dataCols symbols priceData).any fun s => numObs priceData s < 2

/-- The allocation built in the degenerate-covariance branch: the
equal-weight array `[1/n] * n` of `_optimize_portfolio`, zipped over the
data columns. -/
def equalAllocOverCols (symbols : List String) (priceData : Dict (List ℚ)) : Dict ℚ :=
  let cols := dataCols symbols priceData
  cols.foldl (fun a s => dset a s ((1 : ℚ) / cols.length)) []

/-- `{k: v/total for k, v in current_holdings.items()}`. -/
def valueWeighted (holdings : Dict ℚ) : Dict ℚ :=
  dmapVals (fun v => v / dsum holdings) holdings

/-- `PortfolioOptimizer._check_rebalance_needed`. -/
def check_rebalance_needed (threshold : ℚ) (target current : Dict ℚ) : Bool :=
  decide (max_deviation current target > threshold)

/-- `PortfolioOptimizer.calculate_optimal_allocation`.  `oracle` stands for
the weights produced by `scipy.optimize.minimize` inside
`_optimize_portfolio` for the given inputs (an array of `len(cols)`
weights); every theorem about this function quantifies over it.
`holdings` is `current_holdings` (`[]` standing for `None`); a zero total
holding value raises `ZeroDivisionError`, caught by the outer handler
which falls back to the equal-weight dict. -/
def calculate_optimal_allocation (symbols : List String)
    (priceData : Dict (List ℚ)) (holdings : Dict ℚ) (threshold : ℚ)
    (oracle : List String → Dict (List ℚ) → List ℚ) : Dict ℚ :=
  let cols := dataCols symbols priceData
  if cols.length < 2 ∨ numRows symbols priceData < 5 then equalDict symbols
  else
    let weights :=
      if covDegenerate symbols priceData then cols.map fun _ => (1 : ℚ) / cols.length
      else oracle symbols priceData
    let allocation := (cols.zip weights).foldl (fun a p => dset a p.1 p.2) []
    if holdings = [] then allocation
    else
      if dsum holdings = 0 then equalDict symbols
      else
        let currentWeights := valueWeighted holdings
        if check_rebalance_needed threshold allocation currentWeights then allocation
        else currentWeights

end PortfolioOptimizer

/-! ## Market cycle detector and integrator -/

/-- The market regimes of `MarketCycle`. -/
inductive MarketCycle where
  | accumulation
  | uptrend
  | distribution
  | downtrend
  | unknown
deriving DecidableEq

namespace MarketCycleDetector

/-- The detector state fields the claims touch, with the constructor
defaults of `MarketCycleDetector.__init__`. -/
structure State where
  smaShort : ℕ := 20
  smaLong : ℕ := 50
  currentCycle : MarketCycle := .unknown
  confidenceScore : ℚ := 0
deriving DecidableEq

/-- A freshly constructed detector. -/
def initDetector : State := {}

/-- `MarketCycleDetector.detect_market_cycle`.  `btcCloses` is the close
column of `btc_data` (`none` for a `None` frame, and `hasCloseColumn`
models the `'close' in btc.columns` check); `score` stands for the whole
scoring pipeline run on sufficient data, returning the detected cycle, the
confidence and the updated detector state.  With fewer closes than
`sma_long` the method returns `unknown` at once, leaving the state (in
particular `confidence_score`) untouched and never consulting `score`. -/
def detect_market_cycle (st : State) (btcCloses : Option (List ℚ))
    (hasCloseColumn : Bool)
    (score : State → List ℚ → MarketCycle × State) : MarketCycle × State :=
  match btcCloses with
  | none => (.unknown, st)
  | some closes =>
      if closes.length < st.smaLong then (.unknown, st)
      else if ¬hasCloseColumn then (.unknown, st)
      else score st closes

end MarketCycleDetector

namespace MarketCycleIntegrator

/-- The integrator state fields read by `update_market_cycle`. -/
structure State where
  currentCycle : MarketCycle
  enableNotifications : Bool
  hoursSinceUpdate : Option ℚ
deriving DecidableEq

/-- `MarketCycleIntegrator.update_market_cycle`, returning the cycle the
method reports, the updated state and whether
`send_cycle_change_notification` is invoked.  `detected` stands for the
detector's result on the given data.  The source assigns
`self.current_cycle` first and only then reads
`previous_cycle = self.current_cycle`, so the comparison
`previous_cycle != self.current_cycle` is made between two copies of the
new value. -/
def update_market_cycle (st : State) (forceUpdate : Bool) (btcDataLen : ℕ)
    (detected : MarketCycle) : MarketCycle × State × Bool :=
  let proceed : MarketCycle × State × Bool :=
    if btcDataLen < 30 then (.unknown, st, false)
    else
      let newCycle := detected
      let previousCycle := newCycle
      let notify := previousCycle ≠ newCycle ∧ st.enableNotifications = true
      (newCycle, { st with currentCycle := newCycle, hoursSinceUpdate := some 0 },
       decide notify)
  match st.hoursSinceUpdate, forceUpdate with
  | some h, false => if h < 6 then (st.currentCycle, st, false) else proceed
  | _, _ => proceed

end MarketCycleIntegrator

/-! ## Verification-side helper predicates -/

namespace Rebalancer

/-- The planned imbalance a trade was derived from: for a SELL the excess
of current over target value of its base asset, for a BUY the deficit of
current under target value. -/
def plannedDelta (st : PState) (t : Trade) : ℚ :=
  match t.side with
  | .sell => ((dget (currentValues st) t.base).getD 0) - ((dget (targetValues st) t.base).getD 0)
  | .buy => ((dget (targetValues st) t.base).getD 0) - ((dget (currentValues st) t.base).getD 0)

/-- The facts that hold of every BUY trade the buy loop produces from the
target-value entry `p`. -/
def buyFacts (minOrderValue : ℚ) (cv : Dict ℚ) (assets : Dict AssetInfo)
    (getPrice : String → Option ℚ) (p : String × ℚ) (t : Trade) : Prop :=
  t.base = p.1 ∧ t.side = .buy ∧ p.1 ≠ "USDC" ∧
  (dget cv p.1).getD 0 < p.2 ∧
  minOrderValue ≤ p.2 - (dget cv p.1).getD 0 ∧
  t.price = resolvePrice assets getPrice p.1 ∧
  0 < t.quantity ∧ t.value = t.quantity * t.price

end Rebalancer

/-! ## Concrete inputs used by witnesses and counterexamples -/

/-- A portfolio holding 90 USDC worth of asset `X` (price 2) plus 10 USDC
cash, with a 50/50 target: the rebalancer plans to sell 40 USDC of `X`. -/
def exState : PState :=
  { targetAllocation := [("X", 1/2), ("USDC", 1/2)]
    currentAllocation := [("X", 9/10), ("USDC", 1/10)]
    currentAssets := [("X", ⟨2, 90⟩)]
    totalValue := 100
    usdcBalance := 10 }

/-- No external price feed is consulted in the `exState` scenario. -/
def exGetPrice : String → Option ℚ := fun _ => none

/-- Asset store holding a cost basis of 1 for `X` (current price 2, so
100% profit). -/
def exDb : String → Option ℚ := fun s => if s = "X" then some 1 else none

/-- An asset store with no record at all. -/
def exDb3 : String → Option ℚ := fun _ => none

/-- Free balance of 100 units of `X`. -/
def exFree : String → Option ℚ := fun s => if s = "X" then some 100 else none

/-- The SELL trade planned for `exState`. -/
def exTradeX : Trade := { base := "X", side := .sell, quantity := 20, price := 2, value := 40 }

/-- A portfolio worth 100 USDC: 97 USDC of asset `B` (at cost, so the
profit guard blocks selling it) and 3 USDC cash.  The target wants 20% in
a new asset `A`, 78% in `B` and 2% cash, leaving only 1 USDC of investable
surplus for the `A` buy. -/
def exState5 : PState :=
  { targetAllocation := [("A", 1/5), ("B", 39/50), ("USDC", 1/50)]
    currentAllocation := [("B", 97/100), ("USDC", 3/100)]
    currentAssets := [("B", ⟨1, 97⟩)]
    totalValue := 100
    usdcBalance := 3 }

/-- Price feed quoting 1 USDC for asset `A`. -/
def exGetPrice5 : String → Option ℚ := fun s => if s = "AUSDC" then some 1 else none

/-- Asset store holding a cost basis of 1 for `B` (equal to its current
price, so zero profit). -/
def exDb5 : String → Option ℚ := fun s => if s = "B" then some 1 else none

/-- The BUY trade planned for `exState5`: capped to the 1 USDC surplus,
far below the 10 USDC minimum order value. -/
def exTradeA : Trade := { base := "A", side := .buy, quantity := 1, price := 1, value := 1 }

/-- A batch holding a BUY before a SELL, to exercise the reordering of
`execute_rebalance`. -/
def exTrades : List Trade :=
  [{ base := "A", side := .buy, quantity := 1, price := 1, value := 1 },
   { base := "B", side := .sell, quantity := 2, price := 3, value := 6 }]

/-- Five symbols, one (`A`) with eleven close prices (ten return
observations) and four with four closes (three observations each): every
pair of columns overlaps on at least two rows, so the covariance matrix
has no NaN entry, yet only one symbol has five return observations. -/
def symbols6 : List String := ["A", "B", "C", "D", "E"]

/-- Price histories for `symbols6`. -/
def priceData6 : Dict (List ℚ) :=
  [("A", [1, 2, 3, 4, 5, 6, 7, 8, 9, 10, 11]), ("B", [1, 2, 3, 4]),
   ("C", [1, 2, 3, 4]), ("D", [1, 2, 3, 4]), ("E", [1, 2, 3, 4])]

/-- A possible result of `scipy.optimize.minimize` on the `symbols6`
inputs: a valid weight vector that is not equal-weight. -/
def oracle6 : List String → Dict (List ℚ) → List ℚ :=
  fun _ _ => [1/2, 1/8, 1/8, 1/8, 1/8]

/-- Two symbols with two closes each: only one aligned return row, below
the five-row guard of the optimizer. -/
def symbols6w : List String := ["A", "B"]

/-- Price histories for `symbols6w`. -/
def priceData6w : Dict (List ℚ) :=
  [("A", [1, 2]), ("B", [2, 3])]

/-! ## Lemmas about the dictionary model -/

theorem dget_dset_self {α : Type} (d : Dict α) (k : String) (v : α) :
    dget (dset d k v) k = some v := by
  induction d with
  | nil => simp [dset, dget]
  | cons hd tl ih =>
      by_cases h : hd.1 = k
      · simp [dset, dget, h]
      · simp [dset, dget, h, ih]

theorem dget_mem {α : Type} {d : Dict α} {k : String} {v : α}
    (h : dget d k = some v) : (k, v) ∈ d := by
  induction d with
  | nil => simp [dget] at h
  | cons hd tl ih =>
      rw [dget] at h
      split at h
      · rename_i heq
        cases h
        cases hd
        simp_all
      · exact List.mem_cons_of_mem _ (ih h)

theorem mem_dset {α : Type} {d : Dict α} {k : String} {v : α} {p : String × α}
    (hp : p ∈ dset d k v) : p = (k, v) ∨ p ∈ d := by
  induction d with
  | nil => simp [dset] at hp; simp [hp]
  | cons hd tl ih =>
      rw [dset] at hp
      split at hp
      · rcases List.mem_cons.mp hp with h | h
        · exact Or.inl h
        · exact Or.inr (List.mem_cons_of_mem _ h)
      · rcases List.mem_cons.mp hp with h | h
        · exact Or.inr (h ▸ List.mem_cons_self _ _)
        · rcases ih h with h' | h'
          · exact Or.inl h'
          · exact Or.inr (List.mem_cons_of_mem _ h')

theorem mem_dset_self {α : Type} (d : Dict α) (k : String) (v : α) :
    (k, v) ∈ dset d k v :=
  dget_mem (dget_dset_self d k v)

theorem dget_dmapVals {α β : Type} (f : α → β) (d : Dict α) (k : String) :
    dget (dmapVals f d) k = (dget d k).map f := by
  induction d with
  | nil => simp [dmapVals, dget]
  | cons hd tl ih =>
      by_cases h : hd.1 = k
      · simp [dmapVals, dget, h]
      · simpa [dmapVals, dget, h] using ih

theorem mem_dmapVals {α β : Type} {f : α → β} {d : Dict α} {p : String × β}
    (hp : p ∈ dmapVals f d) : ∃ q ∈ d, p = (q.1, f q.2) := by
  rcases List.mem_map.mp hp with ⟨q, hq, hpq⟩
  exact ⟨q, hq, hpq.symm⟩

theorem dsum_dmapVals_div (d : Dict ℚ) (c : ℚ) :
    dsum (dmapVals (fun q => q / c) d) = dsum d / c := by
  induction d with
  | nil => simp [dmapVals, dsum]
  | cons hd tl ih =>
      simp only [dmapVals, dsum, List.map_cons, List.sum_cons] at ih ⊢
      rw [ih, add_div]

theorem dsum_nonneg {d : Dict ℚ} (h : ∀ p ∈ d, 0 ≤ p.2) : 0 ≤ dsum d := by
  induction d with
  | nil => simp [dsum]
  | cons hd tl ih =>
      simp only [dsum, List.map_cons, List.sum_cons]
      have h1 := h hd (List.mem_cons_self _ _)
      have h2 : 0 ≤ dsum tl := ih fun p hp => h p (List.mem_cons_of_mem _ hp)
      simp only [dsum] at h2
      linarith

theorem le_dsum_of_mem {d : Dict ℚ} {p : String × ℚ} (hp : p ∈ d)
    (h : ∀ q ∈ d, 0 ≤ q.2) : p.2 ≤ dsum d := by
  induction d with
  | nil => simp at hp
  | cons hd tl ih =>
      simp only [dsum, List.map_cons, List.sum_cons]
      rcases List.mem_cons.mp hp with h' | h'
      · have h2 : 0 ≤ dsum tl := dsum_nonneg fun q hq => h q (List.mem_cons_of_mem _ hq)
        simp only [dsum] at h2
        subst h'
        linarith
      · have h1 := h hd (List.mem_cons_self _ _)
        have h2 := ih h' fun q hq => h q (List.mem_cons_of_mem _ hq)
        simp only [dsum] at h2
        linarith

theorem dset_nonneg {d : Dict ℚ} (hd : ∀ p ∈ d, 0 ≤ p.2) {k : String} {v : ℚ}
    (hv : 0 ≤ v) : ∀ p ∈ dset d k v, 0 ≤ p.2 := by
  intro p hp
  rcases mem_dset hp with h | h
  · simp [h, hv]
  · exact hd p h

theorem dget_eq_of_mem_nodup {α : Type} {d : Dict α}
    (hnd : (d.map Prod.fst).Nodup) {p : String × α} (hp : p ∈ d) :
    dget d p.1 = some p.2 := by
  induction d with
  | nil => simp at hp
  | cons hd tl ih =>
      simp only [List.map_cons, List.nodup_cons] at hnd
      rcases List.mem_cons.mp hp with h | h
      · subst h
        simp [dget]
      · rw [dget]
        split
        · rename_i heq
          exact absurd (heq ▸ List.mem_map_of_mem Prod.fst h) hnd.1
        · exact ih hnd.2 h

theorem foldl_preserve_mem {α β : Type} (P : α → Prop) (f : α → β → α) :
    ∀ (l : List β) (a : α), (∀ x b, b ∈ l → P x → P (f x b)) → P a → P (l.foldl f a)
  | [], _, _, ha => ha
  | x :: xs, a, hf, ha =>
      foldl_preserve_mem P f xs (f a x)
        (fun y b hb hy => hf y b (List.mem_cons_of_mem _ hb) hy)
        (hf a x (List.mem_cons_self _ _) ha)

/-! ## Lemmas about the rebalancer -/

theorem sellCandidate_inv {mo : ℚ} {tv : Dict ℚ} {assets : Dict AssetInfo}
    {getPrice db free : String → Option ℚ} {p : String × ℚ} {t : Trade}
    (h : Rebalancer.sellCandidate mo tv assets getPrice db free p = some t) :
    t.base = p.1 ∧ t.side = .sell ∧ p.1 ≠ "USDC" ∧
    t.price = Rebalancer.resolvePrice assets getPrice p.1 ∧
    Rebalancer.shouldSell db p.1 t.price = true ∧
    (dget tv p.1).getD 0 < p.2 ∧
    mo ≤ p.2 - (dget tv p.1).getD 0 ∧
    0 < t.quantity ∧ t.value = t.quantity * t.price := by
  unfold Rebalancer.sellCandidate at h
  split at h
  · simp at h
  · rename_i husdc
    split at h
    · simp at h
    · simp at h
      obtain ⟨hgt, hmo, hpr, hss, hq, ht⟩ := h
      subst ht
      exact ⟨rfl, rfl, husdc, rfl, hss, hgt, hmo, hq, rfl⟩

theorem buyStep_mem {mo : ℚ} {cv : Dict ℚ} {assets : Dict AssetInfo}
    {getPrice : String → Option ℚ} {acc : List Trade × ℚ} {p : String × ℚ} {t : Trade}
    (h : t ∈ (Rebalancer.buyStep mo cv assets getPrice acc p).1) :
    t ∈ acc.1 ∨ Rebalancer.buyFacts mo cv assets getPrice p t := by
  unfold Rebalancer.buyStep at h
  split at h
  · exact Or.inl h
  · rename_i husdc
    simp only [] at h
    split at h
    · split at h
      · exact Or.inl h
      · split at h
        · split at h
          · split at h
            · rename_i hlt hsmall hcond hpr hq
              rcases List.mem_append.mp h with h' | h'
              · exact Or.inl h'
              · rcases List.mem_singleton.mp h' with rfl
                exact Or.inr ⟨rfl, rfl, husdc, hlt, by linarith [hcond.1], rfl, hq, rfl⟩
            · exact Or.inl h
          · exact Or.inl h
        · exact Or.inl h
    · exact Or.inl h

theorem buys_foldl_mem {mo : ℚ} {cv : Dict ℚ} {assets : Dict AssetInfo}
    {getPrice : String → Option ℚ} :
    ∀ (l : List (String × ℚ)) (acc : List Trade × ℚ) {t : Trade},
      t ∈ (l.foldl (Rebalancer.buyStep mo cv assets getPrice) acc).1 →
      t ∈ acc.1 ∨ ∃ p ∈ l, Rebalancer.buyFacts mo cv assets getPrice p t
  | [], acc, t, h => Or.inl h
  | x :: xs, acc, t, h => by
      rcases buys_foldl_mem xs (Rebalancer.buyStep mo cv assets getPrice acc x) h with h' | h'
      · rcases buyStep_mem h' with h'' | h''
        · exact Or.inl h''
        · exact Or.inr ⟨x, List.mem_cons_self _ _, h''⟩
      · rcases h' with ⟨p, hp, hfacts⟩
        exact Or.inr ⟨p, List.mem_cons_of_mem _ hp, hfacts⟩

theorem mem_calc_rebalance {mo : ℚ} {st : PState} {getPrice db free : String → Option ℚ}
    {t : Trade} (ht : t ∈ Rebalancer.calculate_rebalance_trades mo st getPrice db free) :
    (∃ p ∈ Rebalancer.currentValues st,
        Rebalancer.sellCandidate mo (Rebalancer.targetValues st) st.currentAssets
          getPrice db free p = some t) ∨
    (∃ p ∈ Rebalancer.targetValues st,
        Rebalancer.buyFacts mo (Rebalancer.currentValues st) st.currentAssets getPrice p t) := by
  unfold Rebalancer.calculate_rebalance_trades at ht
  split at ht
  · simp at ht
  · split at ht
    · simp at ht
    · rcases List.mem_append.mp ht with h | h
      · exact Or.inl (List.mem_filterMap.mp h)
      · rcases buys_foldl_mem _ _ h with h' | h'
        · simp at h'
        · exact Or.inr h'

theorem keys_of_scaled {l : List (String × ℚ)} {f : String × ℚ → ℚ} :
    ((l.map fun p => (p.1, f p)).map Prod.fst) = l.map Prod.fst := by
  induction l with
  | nil => rfl
  | cons hd tl ih => simp [ih]

/-- Claim C1: for every portfolio state, `calculate_rebalance_trades` never
emits a SELL trade for an asset whose relative profit over its stored cost
basis, `(price - cost_basis)/cost_basis`, is below the minimum profit
fraction (1%): such an asset is skipped rather than sold. -/
theorem c1_no_sell_below_min_profit (mo : ℚ) (st : PState)
    (getPrice db free : String → Option ℚ) (t : Trade)
    (ht : t ∈ Rebalancer.calculate_rebalance_trades mo st getPrice db free)
    (hside : t.side = .sell) (pb : ℚ) (hdb : db t.base = some pb) (hpb : 0 < pb) :
    ¬ (t.price - pb) / pb < Rebalancer.min_profit_percentage := by
  rcases mem_calc_rebalance ht with ⟨p, hp, hsc⟩ | ⟨p, hp, hf⟩
  · obtain ⟨hbase, _, _, hprice, hss, _⟩ := sellCandidate_inv hsc
    rw [hbase] at hdb
    simp only [Rebalancer.shouldSell, hdb] at hss
    rw [if_neg (ne_of_gt hpb)] at hss
    intro hlt
    rw [if_pos hlt] at hss
    cases hss
  · rw [hf.2.1] at hside
    cases hside

/-- Claim C10: `calculate_rebalance_trades` never emits a trade whose base
asset is the cash symbol USDC: both the sell loop and the buy loop skip
the `USDC` entry. -/
theorem c10_never_trades_usdc (mo : ℚ) (st : PState)
    (getPrice db free : String → Option ℚ) (t : Trade)
    (ht : t ∈ Rebalancer.calculate_rebalance_trades mo st getPrice db free) :
    t.base ≠ "USDC" := by
  rcases mem_calc_rebalance ht with ⟨p, hp, hsc⟩ | ⟨p, hp, hf⟩
  · obtain ⟨hbase, _, husdc, _⟩ := sellCandidate_inv hsc
    rw [hbase]
    exact husdc
  · rw [hf.1]
    exact hf.2.2.1

/-- Claim C5, amended: every trade emitted by `calculate_rebalance_trades`
stems from a planned target-vs-current imbalance of at least
`min_order_value`, checked before capping; the executed notional itself
can end up below that floor (see the counterexample). -/
theorem c5_min_order_before_capping (mo : ℚ) (st : PState)
    (getPrice db free : String → Option ℚ)
    (hcur : (st.currentAllocation.map Prod.fst).Nodup)
    (htgt : (st.targetAllocation.map Prod.fst).Nodup)
    (t : Trade) (ht : t ∈ Rebalancer.calculate_rebalance_trades mo st getPrice db free) :
    mo ≤ Rebalancer.plannedDelta st t := by
  have hcv : ((Rebalancer.currentValues st).map Prod.fst).Nodup := by
    unfold Rebalancer.currentValues
    rw [keys_of_scaled]
    exact hcur
  have htv : ((Rebalancer.targetValues st).map Prod.fst).Nodup := by
    unfold Rebalancer.targetValues
    rw [keys_of_scaled]
    exact htgt
  rcases mem_calc_rebalance ht with ⟨p, hp, hsc⟩ | ⟨p, hp, hf⟩
  · obtain ⟨hbase, hside, _, _, _, hgt, hmo, _⟩ := sellCandidate_inv hsc
    have hget := dget_eq_of_mem_nodup hcv hp
    simp only [Rebalancer.plannedDelta, hside, hbase, hget, Option.getD_some]
    linarith
  · obtain ⟨hbase, hside, _, hlt, hmo, _⟩ := hf
    have hget := dget_eq_of_mem_nodup htv hp
    simp only [Rebalancer.plannedDelta, hside, hbase, hget, Option.getD_some]
    linarith

/-- Claim C3, amended: when the cost-basis record of a held asset is
missing from the asset store at rebalance time, the profit-protection
check is skipped with only a warning and the SELL goes ahead; the asset is
not treated as "do not sell". -/
theorem c3_missing_record_still_sells (mo : ℚ) (st : PState)
    (getPrice db free : String → Option ℚ) (p : String × ℚ)
    (hp : p ∈ Rebalancer.currentValues st)
    (htgt : ¬ st.targetAllocation = [])
    (hcur : ¬ (st.currentAllocation = [] ∨ st.totalValue ≤ 0))
    (hdb : db p.1 = none) (husdc : ¬ p.1 = "USDC")
    (hgt : (dget (Rebalancer.targetValues st) p.1).getD 0 < p.2)
    (hsmall : ¬ p.2 < Rebalancer.min_asset_value)
    (hmo : mo ≤ p.2 - (dget (Rebalancer.targetValues st) p.1).getD 0)
    (hpr : 0 < Rebalancer.resolvePrice st.currentAssets getPrice p.1)
    (hq : 0 < QuantityCalculator.calculate_sell_quantity free p.1
        (Rebalancer.resolvePrice st.currentAssets getPrice p.1)
        (p.2 - (dget (Rebalancer.targetValues st) p.1).getD 0)) :
    ∃ t ∈ Rebalancer.calculate_rebalance_trades mo st getPrice db free,
      t.base = p.1 ∧ t.side = .sell := by
  have hss : Rebalancer.shouldSell db p.1
      (Rebalancer.resolvePrice st.currentAssets getPrice p.1) = true := by
    unfold Rebalancer.shouldSell
    rw [hdb]
  cases hsc : Rebalancer.sellCandidate mo (Rebalancer.targetValues st) st.currentAssets
      getPrice db free p with
  | none =>
      exfalso
      unfold Rebalancer.sellCandidate at hsc
      simp only [husdc, hgt, hsmall, hmo, hpr, hq, hss] at hsc
      simp at hsc
  | some t =>
      obtain ⟨hbase, hside, _⟩ := sellCandidate_inv hsc
      refine ⟨t, ?_, hbase, hside⟩
      unfold Rebalancer.calculate_rebalance_trades
      rw [if_neg htgt, if_neg hcur]
      exact List.mem_append_left _ (List.mem_filterMap.mpr ⟨p, hp, hsc⟩)

theorem execution_order_head_side {trades : List Trade} {i : ℕ}
    (hi : i < (Rebalancer.execution_order trades).length)
    (hlt : i < (trades.filter fun t => t.side = .sell).length) :
    ((Rebalancer.execution_order trades).get ⟨i, hi⟩).side = .sell := by
  rw [List.get_eq_getElem]
  unfold Rebalancer.execution_order
  rw [List.getElem_append_left hlt]
  have hmem : (trades.filter fun t => t.side = .sell)[i] ∈
      trades.filter fun t => t.side = .sell := List.getElem_mem hlt
  simpa using (List.mem_filter.mp hmem).2

theorem execution_order_tail_side {trades : List Trade} {j : ℕ}
    (hj : j < (Rebalancer.execution_order trades).length)
    (hge : (trades.filter fun t => t.side = .sell).length ≤ j) :
    ((Rebalancer.execution_order trades).get ⟨j, hj⟩).side = .buy := by
  have hj2 : j < (trades.filter fun t => t.side = .sell).length +
      (trades.filter fun t => t.side = .buy).length := by
    have hj3 := hj
    unfold Rebalancer.execution_order at hj3
    rw [List.length_append] at hj3
    exact hj3
  have hk : j - (trades.filter fun t => t.side = .sell).length <
      (trades.filter fun t => t.side = .buy).length := by omega
  rw [List.get_eq_getElem]
  unfold Rebalancer.execution_order
  rw [List.getElem_append_right hge]
  have hmem : (trades.filter fun t => t.side = .buy)[j - (trades.filter fun t => t.side = .sell).length] ∈
      trades.filter fun t => t.side = .buy := List.getElem_mem hk
  simpa using (List.mem_filter.mp hmem).2

/-- Claim C4: in the order `execute_rebalance` submits a rebalance batch,
every SELL trade comes before any BUY trade: a SELL sits at a strictly
smaller position of the execution order than every BUY. -/
theorem c4_sells_before_buys (trades : List Trade) (i j : ℕ)
    (hi : i < (Rebalancer.execution_order trades).length)
    (hj : j < (Rebalancer.execution_order trades).length)
    (hs : ((Rebalancer.execution_order trades).get ⟨i, hi⟩).side = .sell)
    (hb : ((Rebalancer.execution_order trades).get ⟨j, hj⟩).side = .buy) :
    i < j := by
  by_cases hilt : i < (trades.filter fun t => t.side = .sell).length
  · by_cases hjlt : j < (trades.filter fun t => t.side = .sell).length
    · rw [execution_order_head_side hj hjlt] at hb
      cases hb
    · omega
  · rw [execution_order_tail_side hi (by omega)] at hs
    cases hs

theorem exState_trades_eval :
    Rebalancer.calculate_rebalance_trades 10 exState exGetPrice exDb exFree = [exTradeX] := by
  norm_num +decide [Rebalancer.calculate_rebalance_trades, Rebalancer.targetValues,
    Rebalancer.currentValues, Rebalancer.sellCandidate, Rebalancer.buyStep,
    Rebalancer.resolvePrice, Rebalancer.shouldSell, Rebalancer.min_profit_percentage,
    Rebalancer.min_asset_value, Rebalancer.min_buy_value,
    QuantityCalculator.calculate_sell_quantity, QuantityCalculator.calculate_buy_quantity,
    QuantityCalculator.pyRound, QuantityCalculator.roundHalfEven, QuantityCalculator.pyTrunc,
    dget, exState, exGetPrice, exDb, exFree, exTradeX, List.filterMap, List.foldl]

theorem exState_trades_eval_nodb :
    Rebalancer.calculate_rebalance_trades 10 exState exGetPrice exDb3 exFree = [exTradeX] := by
  norm_num +decide [Rebalancer.calculate_rebalance_trades, Rebalancer.targetValues,
    Rebalancer.currentValues, Rebalancer.sellCandidate, Rebalancer.buyStep,
    Rebalancer.resolvePrice, Rebalancer.shouldSell, Rebalancer.min_profit_percentage,
    Rebalancer.min_asset_value, Rebalancer.min_buy_value,
    QuantityCalculator.calculate_sell_quantity, QuantityCalculator.calculate_buy_quantity,
    QuantityCalculator.pyRound, QuantityCalculator.roundHalfEven, QuantityCalculator.pyTrunc,
    dget, exState, exGetPrice, exDb3, exFree, exTradeX, List.filterMap, List.foldl]

theorem exState5_trades_eval :
    Rebalancer.calculate_rebalance_trades 10 exState5 exGetPrice5 exDb5 exFree = [exTradeA] := by
  norm_num +decide [Rebalancer.calculate_rebalance_trades, Rebalancer.targetValues,
    Rebalancer.currentValues, Rebalancer.sellCandidate, Rebalancer.buyStep,
    Rebalancer.resolvePrice, Rebalancer.shouldSell, Rebalancer.min_profit_percentage,
    Rebalancer.min_asset_value, Rebalancer.min_buy_value,
    QuantityCalculator.calculate_sell_quantity, QuantityCalculator.calculate_buy_quantity,
    QuantityCalculator.pyRound, QuantityCalculator.roundHalfEven, QuantityCalculator.pyTrunc,
    dget, exState5, exGetPrice5, exDb5, exFree, exTradeA, List.filterMap, List.foldl]

/-- Witness for C1: in the `exState` scenario the SELL of `X` is emitted,
its stored cost basis is 1 (positive), and the theorem yields that its
profit `(2 - 1)/1` is not below 1%. -/
theorem c1_witness :
    exTradeX ∈ Rebalancer.calculate_rebalance_trades 10 exState exGetPrice exDb exFree ∧
    exTradeX.side = .sell ∧ exDb exTradeX.base = some 1 ∧ (0 : ℚ) < 1 ∧
    ¬ (exTradeX.price - 1) / 1 < Rebalancer.min_profit_percentage := by
  have hmem : exTradeX ∈ Rebalancer.calculate_rebalance_trades 10 exState exGetPrice exDb exFree := by
    rw [exState_trades_eval]
    exact List.mem_singleton.mpr rfl
  have hdb : exDb exTradeX.base = some 1 := by norm_num [exDb, exTradeX]
  exact ⟨hmem, rfl, hdb, one_pos,
    c1_no_sell_below_min_profit 10 exState exGetPrice exDb exFree exTradeX hmem rfl 1 hdb one_pos⟩

/-- Witness for C10: the BUY of `A` planned in the `exState5` scenario has
a base asset different from USDC. -/
theorem c10_witness :
    exTradeA ∈ Rebalancer.calculate_rebalance_trades 10 exState5 exGetPrice5 exDb5 exFree ∧
    exTradeA.base ≠ "USDC" := by
  have hmem : exTradeA ∈ Rebalancer.calculate_rebalance_trades 10 exState5 exGetPrice5 exDb5 exFree := by
    rw [exState5_trades_eval]
    exact List.mem_singleton.mpr rfl
  exact ⟨hmem, c10_never_trades_usdc 10 exState5 exGetPrice5 exDb5 exFree exTradeA hmem⟩

/-- Counterexample for C5 as stated: the `exState5` scenario plans a BUY
whose notional value is 1 USDC, below the 10 USDC `min_order_value`
passed to the rebalancer, because the deficit of 20 USDC was capped to
the 1 USDC of investable surplus after the minimum-value check. -/
theorem c5_counterexample :
    exTradeA ∈ Rebalancer.calculate_rebalance_trades 10 exState5 exGetPrice5 exDb5 exFree ∧
    exTradeA.value < 10 := by
  constructor
  · rw [exState5_trades_eval]
    exact List.mem_singleton.mpr rfl
  · norm_num [exTradeA]

/-- Witness for the amended C5: the SELL of `X` planned for `exState`
stems from a 40 USDC planned excess, at least the 10 USDC floor. -/
theorem c5_witness :
    (exState.currentAllocation.map Prod.fst).Nodup ∧
    (exState.targetAllocation.map Prod.fst).Nodup ∧
    exTradeX ∈ Rebalancer.calculate_rebalance_trades 10 exState exGetPrice exDb exFree ∧
    10 ≤ Rebalancer.plannedDelta exState exTradeX := by
  have hmem : exTradeX ∈ Rebalancer.calculate_rebalance_trades 10 exState exGetPrice exDb exFree := by
    rw [exState_trades_eval]
    exact List.mem_singleton.mpr rfl
  have hcur : (exState.currentAllocation.map Prod.fst).Nodup := by
    simp +decide [exState]
  have htgt : (exState.targetAllocation.map Prod.fst).Nodup := by
    simp +decide [exState]
  exact ⟨hcur, htgt, hmem,
    c5_min_order_before_capping 10 exState exGetPrice exDb exFree hcur htgt exTradeX hmem⟩

/-- Counterexample for C3 as stated: in the `exState` scenario with an
empty asset store, the cost-basis record of the held asset `X` is missing,
yet `calculate_rebalance_trades` still emits the SELL of `X`. -/
theorem c3_counterexample :
    exDb3 "X" = none ∧ (dget exState.currentAssets "X").isSome = true ∧
    exTradeX ∈ Rebalancer.calculate_rebalance_trades 10 exState exGetPrice exDb3 exFree ∧
    exTradeX.base = "X" ∧ exTradeX.side = .sell := by
  refine ⟨rfl, by norm_num +decide [dget, exState], ?_, rfl, rfl⟩
  rw [exState_trades_eval_nodb]
  exact List.mem_singleton.mpr rfl

/-- Witness for the amended C3: the hypotheses of
`c3_missing_record_still_sells` hold in the `exState` scenario with an
empty asset store, so a SELL of `X` is emitted there. -/
theorem c3_witness :
    exDb3 "X" = none ∧
    ∃ t ∈ Rebalancer.calculate_rebalance_trades 10 exState exGetPrice exDb3 exFree,
      t.base = "X" ∧ t.side = .sell := by
  refine ⟨rfl, c3_missing_record_still_sells 10 exState exGetPrice exDb3 exFree ("X", 90)
    ?_ ?_ ?_ rfl ?_ ?_ ?_ ?_ ?_ ?_⟩
  · norm_num +decide [Rebalancer.currentValues, exState]
  · simp +decide [exState]
  · norm_num +decide [exState]
  · simp +decide
  · norm_num +decide [Rebalancer.targetValues, exState, dget]
  · norm_num [Rebalancer.min_asset_value]
  · norm_num +decide [Rebalancer.targetValues, exState, dget]
  · norm_num +decide [Rebalancer.resolvePrice, dget, exState, exGetPrice]
  · norm_num +decide [Rebalancer.targetValues, exState, dget,
      QuantityCalculator.calculate_sell_quantity, QuantityCalculator.calculate_buy_quantity,
      QuantityCalculator.pyRound, QuantityCalculator.roundHalfEven, exFree,
      Rebalancer.resolvePrice, exGetPrice]

/-- Witness for C4: in a batch holding a BUY then a SELL, the execution
order puts the SELL at position 0 and the BUY at position 1, and the
theorem yields `0 < 1`. -/
theorem c4_witness :
    Rebalancer.execution_order exTrades =
      [{ base := "B", side := .sell, quantity := 2, price := 3, value := 6 },
       { base := "A", side := .buy, quantity := 1, price := 1, value := 1 }] ∧
    (0 : ℕ) < 1 := by
  constructor
  · norm_num +decide [Rebalancer.execution_order, exTrades, List.filter]
  · exact c4_sells_before_buys exTrades 0 1
      (by norm_num +decide [Rebalancer.execution_order, exTrades, List.filter])
      (by norm_num +decide [Rebalancer.execution_order, exTrades, List.filter])
      (by norm_num +decide [Rebalancer.execution_order, exTrades, List.filter])
      (by norm_num +decide [Rebalancer.execution_order, exTrades, List.filter])

/-! ## Lemmas about the allocation calculator -/

theorem dset_usdc_total_pos {a : Dict ℚ} (ha : ∀ p ∈ a, 0 ≤ p.2) {c : ℚ} (hc : 0 < c) :
    0 < dsum (dset a "USDC" c) := by
  have hmem := mem_dset_self a "USDC" c
  have hnn : ∀ p ∈ dset a "USDC" c, 0 ≤ p.2 := dset_nonneg ha (le_of_lt hc)
  have := le_dsum_of_mem hmem hnn
  simp only at this
  linarith

theorem normalize_invariant {b : Dict ℚ} (hb : ∀ p ∈ b, 0 ≤ p.2) (hpos : 0 < dsum b)
    (husdc : (dget b "USDC").isSome = true) :
    (∀ p ∈ dmapVals (fun q => q / dsum b) b, 0 ≤ p.2) ∧
    dsum (dmapVals (fun q => q / dsum b) b) = 1 ∧
    (dget (dmapVals (fun q => q / dsum b) b) "USDC").isSome = true := by
  refine ⟨?_, ?_, ?_⟩
  · intro p hp
    rcases mem_dmapVals hp with ⟨q, hq, rfl⟩
    exact div_nonneg (hb q hq) (le_of_lt hpos)
  · rw [dsum_dmapVals_div, div_self (ne_of_gt hpos)]
  · rw [dget_dmapVals]
    rcases Option.isSome_iff_exists.mp husdc with ⟨v, hv⟩
    rw [hv]
    rfl

theorem finalizeAllocation_invariant (a : Dict ℚ) :
    (∀ p ∈ AllocationCalculator.finalizeAllocation a, 0 ≤ p.2) ∧
    dsum (AllocationCalculator.finalizeAllocation a) = 1 ∧
    (dget (AllocationCalculator.finalizeAllocation a) "USDC").isSome = true := by
  have h1 : ∀ p ∈ dmapVals (fun q => if q < 0 then 0 else q) a, 0 ≤ p.2 := by
    intro p hp
    rcases mem_dmapVals hp with ⟨q, hq, rfl⟩
    dsimp only
    split
    · exact le_refl 0
    · linarith [lt_or_ge q.2 0]
  have h2 : ∀ p ∈ dmapVals (fun q => q * (1 - AllocationCalculator.cash_reserve))
      (dmapVals (fun q => if q < 0 then 0 else q) a), 0 ≤ p.2 := by
    intro p hp
    rcases mem_dmapVals hp with ⟨q, hq, rfl⟩
    have := h1 q hq
    dsimp only
    have hcr : (0 : ℚ) ≤ 1 - AllocationCalculator.cash_reserve := by
      norm_num [AllocationCalculator.cash_reserve]
    exact mul_nonneg this hcr
  have hcpos : (0 : ℚ) < AllocationCalculator.cash_reserve := by
    norm_num [AllocationCalculator.cash_reserve]
  have h3 := dset_nonneg h2 (le_of_lt hcpos)
    (k := "USDC")
  have hpos := dset_usdc_total_pos h2 hcpos
  have husdc : (dget (dset (dmapVals (fun q => q * (1 - AllocationCalculator.cash_reserve))
      (dmapVals (fun q => if q < 0 then 0 else q) a)) "USDC"
      AllocationCalculator.cash_reserve) "USDC").isSome = true := by
    rw [dget_dset_self]
    rfl
  have hmain := normalize_invariant h3 hpos husdc
  unfold AllocationCalculator.finalizeAllocation
  simp only []
  rw [if_pos hpos]
  exact hmain

theorem mem_insertDesc {x p : String × ℚ} : ∀ {l : List (String × ℚ)},
    p ∈ AllocationCalculator.insertDesc x l → p = x ∨ p ∈ l := by
  intro l
  induction l with
  | nil =>
      intro hp
      simpa [AllocationCalculator.insertDesc] using hp
  | cons y ys ih =>
      intro hp
      unfold AllocationCalculator.insertDesc at hp
      split at hp
      · rcases List.mem_cons.mp hp with h | h
        · exact Or.inl h
        · exact Or.inr h
      · rcases List.mem_cons.mp hp with h | h
        · exact Or.inr (h ▸ List.mem_cons_self _ _)
        · rcases ih h with h' | h'
          · exact Or.inl h'
          · exact Or.inr (List.mem_cons_of_mem _ h')

theorem mem_sortAssetsDesc {p : String × ℚ} : ∀ {l : List (String × ℚ)},
    p ∈ AllocationCalculator.sortAssetsDesc l → p ∈ l := by
  intro l
  induction l with
  | nil =>
      intro hp
      simp [AllocationCalculator.sortAssetsDesc] at hp
  | cons y ys ih =>
      intro hp
      unfold AllocationCalculator.sortAssetsDesc at hp
      rcases mem_insertDesc hp with h | h
      · exact h ▸ List.mem_cons_self _ _
      · exact List.mem_cons_of_mem _ (ih h)

theorem fixedDefaultAllocation_invariant :
    (∀ p ∈ AllocationCalculator.fixedDefaultAllocation, 0 ≤ p.2) ∧
    dsum AllocationCalculator.fixedDefaultAllocation = 1 ∧
    (dget AllocationCalculator.fixedDefaultAllocation "USDC").isSome = true := by
  refine ⟨?_, ?_, ?_⟩
  · intro p hp
    simp only [AllocationCalculator.fixedDefaultAllocation, List.mem_cons,
      List.not_mem_nil, or_false] at hp
    rcases hp with h | h | h | h | h <;> rw [h] <;> norm_num
  · norm_num [AllocationCalculator.fixedDefaultAllocation, dsum]
  · norm_num +decide [AllocationCalculator.fixedDefaultAllocation, dget]

theorem get_default_allocation_invariant (assets : Dict ℚ)
    (h : ∀ p ∈ assets, 0 ≤ p.2) :
    (∀ p ∈ AllocationCalculator.get_default_allocation assets, 0 ≤ p.2) ∧
    dsum (AllocationCalculator.get_default_allocation assets) = 1 ∧
    (dget (AllocationCalculator.get_default_allocation assets) "USDC").isSome = true := by
  unfold AllocationCalculator.get_default_allocation
  split
  · exact fixedDefaultAllocation_invariant
  · simp only []
    split
    · exact fixedDefaultAllocation_invariant
    · set s := AllocationCalculator.sortAssetsDesc assets with hs
      set a1 := (s.take 10).foldl
        (fun (a : Dict ℚ) (p : String × ℚ) =>
          if dsum s > 0 then dset a p.1 (p.2 / dsum s * (3/4)) else a) [] with ha1
      have hsmem : ∀ p ∈ s, 0 ≤ p.2 := fun p hp => h p (mem_sortAssetsDesc (hs ▸ hp))
      have h1 : ∀ p ∈ a1, 0 ≤ p.2 := by
        rw [ha1]
        refine foldl_preserve_mem (fun (a : Dict ℚ) => ∀ p ∈ a, 0 ≤ p.2) _ _ _ ?_ ?_
        · intro x b hb hx
          split
          · rename_i hpos
            refine dset_nonneg hx ?_
            have hb2 : 0 ≤ b.2 := hsmem b (List.mem_of_mem_take hb)
            have : (0 : ℚ) ≤ b.2 / dsum s := div_nonneg hb2 (le_of_lt hpos)
            positivity
          · exact hx
        · intro p hp
          simp at hp
      have h2 : ∀ p ∈ dset a1 "USDC" (1/4), 0 ≤ p.2 := dset_nonneg h1 (by norm_num)
      have hpos : 0 < dsum (dset a1 "USDC" (1/4)) := dset_usdc_total_pos h1 (by norm_num)
      have husdc : (dget (dset a1 "USDC" (1/4)) "USDC").isSome = true := by
        rw [dget_dset_self]
        rfl
      have hmain := normalize_invariant h2 hpos husdc
      rw [if_pos hpos]
      exact hmain

/-- Claim C2: every allocation dictionary returned by
`calculate_optimal_allocation` — whatever weights the optimizer layer hands
back, and including the default-allocation fallback paths — has only
nonnegative (finite) weights, weights summing exactly to 1, and the cash
symbol USDC present as a key.  The hypothesis reflects that the
`value_usdc` entries of `state.current_assets` are nonnegative, as the
data collector only stores assets with positive USDC value. -/
theorem c2_allocation_invariant (hasMarketData : Bool) (validSymbols : List String)
    (assets : Dict ℚ) (optResult : Option AllocationCalculator.OptResult)
    (hassets : ∀ p ∈ assets, 0 ≤ p.2) :
    (∀ p ∈ AllocationCalculator.calculate_optimal_allocation hasMarketData validSymbols
        assets optResult, 0 ≤ p.2) ∧
    dsum (AllocationCalculator.calculate_optimal_allocation hasMarketData validSymbols
        assets optResult) = 1 ∧
    (dget (AllocationCalculator.calculate_optimal_allocation hasMarketData validSymbols
        assets optResult) "USDC").isSome = true := by
  unfold AllocationCalculator.calculate_optimal_allocation
  split
  · exact get_default_allocation_invariant assets hassets
  · split
    · exact get_default_allocation_invariant assets hassets
    · split
      · exact get_default_allocation_invariant assets hassets
      · split
        · exact finalizeAllocation_invariant _
        · exact finalizeAllocation_invariant _

/-- Witness for C2: a portfolio holding 50 USDC of BTC with no market
data falls back to the value-weighted default allocation, whose weights
are nonnegative, sum to 1 and include USDC. -/
theorem c2_witness :
    (∀ p ∈ [(("BTC" : String), (50 : ℚ))], 0 ≤ p.2) ∧
    dsum (AllocationCalculator.calculate_optimal_allocation false [] [("BTC", 50)] none) = 1 ∧
    (dget (AllocationCalculator.calculate_optimal_allocation false [] [("BTC", 50)] none)
      "USDC").isSome = true := by
  have hassets : ∀ p ∈ [(("BTC" : String), (50 : ℚ))], 0 ≤ p.2 := by
    intro p hp
    simp only [List.mem_singleton] at hp
    rw [hp]
    norm_num
  have hmain := c2_allocation_invariant false [] [("BTC", 50)] none hassets
  exact ⟨hassets, hmain.2.1, hmain.2.2⟩

/-! ## Lemmas about the portfolio optimizer -/

theorem zip_const_foldl (c : ℚ) : ∀ (l : List String) (acc : Dict ℚ),
    (l.zip (l.map fun _ => c)).foldl (fun a p => dset a p.1 p.2) acc =
      l.foldl (fun a s => dset a s c) acc
  | [], _ => rfl
  | x :: xs, acc => by
      simp only [List.map_cons, List.zip_cons_cons, List.foldl_cons]
      exact zip_const_foldl c xs _

/-- Claim C6, amended: whenever the optimizer's guard fires (fewer than
two symbols with price data, or fewer than five aligned return rows) or
the covariance matrix is degenerate (some column has fewer than two
return observations), `PortfolioOptimizer.calculate_optimal_allocation`
returns the equal-weight dict over the input symbols, the equal-weight
dict over the data columns, or the value-weighted current holdings —
independently of whatever `scipy.optimize.minimize` would return.  The
guard is not the per-symbol sufficiency condition the claim states (see
the counterexample). -/
theorem c6_degenerate_fallback (symbols : List String) (priceData : Dict (List ℚ))
    (holdings : Dict ℚ) (threshold : ℚ)
    (oracle : List String → Dict (List ℚ) → List ℚ)
    (h : (PortfolioOptimizer.dataCols symbols priceData).length < 2 ∨
         PortfolioOptimizer.numRows symbols priceData < 5 ∨
         PortfolioOptimizer.covDegenerate symbols priceData = true) :
    PortfolioOptimizer.calculate_optimal_allocation symbols priceData holdings threshold oracle
      = PortfolioOptimizer.equalDict symbols ∨
    PortfolioOptimizer.calculate_optimal_allocation symbols priceData holdings threshold oracle
      = PortfolioOptimizer.equalAllocOverCols symbols priceData ∨
    PortfolioOptimizer.calculate_optimal_allocation symbols priceData holdings threshold oracle
      = PortfolioOptimizer.valueWeighted holdings := by
  unfold PortfolioOptimizer.calculate_optimal_allocation
  simp only []
  by_cases hguard : (PortfolioOptimizer.dataCols symbols priceData).length < 2 ∨
      PortfolioOptimizer.numRows symbols priceData < 5
  · rw [if_pos hguard]
    exact Or.inl rfl
  · have hdeg : PortfolioOptimizer.covDegenerate symbols priceData = true := by
      rcases h with h1 | h1 | h1
      · exact absurd (Or.inl h1) hguard
      · exact absurd (Or.inr h1) hguard
      · exact h1
    rw [if_neg hguard, hdeg]
    simp only [if_true]
    rw [zip_const_foldl]
    split
    · exact Or.inr (Or.inl rfl)
    · split
      · exact Or.inl rfl
      · split
        · exact Or.inr (Or.inl rfl)
        · exact Or.inr (Or.inr rfl)

/-- Witness for the amended C6: two symbols with two closes each leave a
single aligned return row, the guard fires, and the result is the
equal-weight dict over the symbols. -/
theorem c6_witness :
    (PortfolioOptimizer.numRows symbols6w priceData6w < 5) ∧
    (PortfolioOptimizer.calculate_optimal_allocation symbols6w priceData6w [] (3/20)
        (fun _ _ => []) = PortfolioOptimizer.equalDict symbols6w ∨
     PortfolioOptimizer.calculate_optimal_allocation symbols6w priceData6w [] (3/20)
        (fun _ _ => []) = PortfolioOptimizer.equalAllocOverCols symbols6w priceData6w ∨
     PortfolioOptimizer.calculate_optimal_allocation symbols6w priceData6w [] (3/20)
        (fun _ _ => []) = PortfolioOptimizer.valueWeighted []) := by
  have hrows : PortfolioOptimizer.numRows symbols6w priceData6w < 5 := by decide
  exact ⟨hrows,
    c6_degenerate_fallback symbols6w priceData6w [] (3/20) (fun _ _ => []) (Or.inr (Or.inl hrows))⟩

/-- Counterexample for C6 as stated: with `priceData6` only one of the
five symbols has at least five return observations, yet the covariance
matrix is not degenerate and the optimizer proceeds to the scipy search;
for a perfectly admissible minimizer result (`oracle6`) the returned
allocation is neither the equal-weight dict nor the value-weighted
holdings. -/
theorem c6_counterexample :
    ((symbols6.filter fun s => 5 ≤ PortfolioOptimizer.numObs priceData6 s).length < 2) ∧
    PortfolioOptimizer.covDegenerate symbols6 priceData6 = false ∧
    PortfolioOptimizer.calculate_optimal_allocation symbols6 priceData6 [] (3/20) oracle6 ≠
      PortfolioOptimizer.equalDict symbols6 ∧
    PortfolioOptimizer.calculate_optimal_allocation symbols6 priceData6 [] (3/20) oracle6 ≠
      PortfolioOptimizer.valueWeighted [] := by
  refine ⟨by decide, by decide, ?_, ?_⟩ <;>
    norm_num +decide [PortfolioOptimizer.calculate_optimal_allocation,
      PortfolioOptimizer.dataCols, PortfolioOptimizer.numRows, PortfolioOptimizer.numObs,
      PortfolioOptimizer.covDegenerate, PortfolioOptimizer.equalDict,
      PortfolioOptimizer.valueWeighted, dmapVals, dsum, dget, dset, symbols6, priceData6,
      oracle6, List.foldl, List.foldr, List.zip, List.zipWith, List.filter]

/-- Claim C7: after a successful state update (so both allocations are
populated), `check_and_rebalance_if_needed` triggers a rebalance exactly
when the maximum absolute deviation over the target symbols exceeds the
rebalance threshold, or the current hour is a scheduled rebalance hour and
no rebalance has happened within the last hour. -/
theorem c7_trigger_iff (threshold : ℚ) (current target : Dict ℚ) (hour : ℕ)
    (rebalanceHours : List ℕ) (lastRebalanceTime : Option ℤ) (now : ℤ)
    (hcur : current ≠ []) (htgt : target ≠ []) :
    need_rebalance threshold current target hour rebalanceHours lastRebalanceTime now = true ↔
      (threshold < max_deviation current target ∨
        (hour ∈ rebalanceHours ∧ ∀ l, lastRebalanceTime = some l → 3600 < now - l)) := by
  unfold need_rebalance check_significant_deviation
  rw [if_neg (by simp [hcur, htgt])]
  cases lastRebalanceTime with
  | none => simp
  | some l => simp

/-- Witness for C7: one asset fully held against a half-weight target
deviates by 1/2 > 3/20, so the trigger fires by the deviation branch. -/
theorem c7_witness :
    ([(("BTC" : String), (1 : ℚ))] ≠ ([] : Dict ℚ)) ∧
    ([(("BTC" : String), (1 : ℚ)/2)] ≠ ([] : Dict ℚ)) ∧
    (need_rebalance (3/20) [("BTC", 1)] [("BTC", 1/2)] 3 [3] none 0 = true ↔
      ((3 : ℚ)/20 < max_deviation [("BTC", 1)] [("BTC", 1/2)] ∨
        (3 ∈ [3] ∧ ∀ l, (none : Option ℤ) = some l → 3600 < (0 : ℤ) - l))) := by
  refine ⟨by simp, by simp, ?_⟩
  exact c7_trigger_iff (3/20) [("BTC", 1)] [("BTC", 1/2)] 3 [3] none 0 (by simp) (by simp)

/-- Claim C8 (evidence of the code bug): `update_market_cycle` never
invokes `send_cycle_change_notification`, because `previous_cycle` is
read only after `self.current_cycle` has been overwritten with the new
regime, so the transition test always compares the new regime with
itself. -/
theorem c8_notification_never_fires (st : MarketCycleIntegrator.State) (forceUpdate : Bool)
    (btcDataLen : ℕ) (detected : MarketCycle) :
    (MarketCycleIntegrator.update_market_cycle st forceUpdate btcDataLen detected).2.2 = false := by
  unfold MarketCycleIntegrator.update_market_cycle
  simp only []
  split
  · split
    · rfl
    · split
      · rfl
      · simp
  · split
    · rfl
    · simp

/-- Claim C9: a freshly constructed detector fed fewer closes than the
long moving-average lookback (`sma_long = 50`) reports the unknown regime
at once — whatever the scoring pipeline would have computed — leaving the
detector state untouched, with its confidence score still 0. -/
theorem c9_short_history_unknown (closes : List ℚ) (hasCloseColumn : Bool)
    (score : MarketCycleDetector.State → List ℚ → MarketCycle × MarketCycleDetector.State)
    (h : closes.length < 50) :
    MarketCycleDetector.detect_market_cycle MarketCycleDetector.initDetector (some closes)
        hasCloseColumn score = (.unknown, MarketCycleDetector.initDetector) ∧
    MarketCycleDetector.initDetector.confidenceScore = 0 := by
  constructor
  · simp [MarketCycleDetector.detect_market_cycle, MarketCycleDetector.initDetector, h]
  · rfl

/-- Witness for C9: the empty price history is shorter than 50 periods,
and the detector reports unknown with confidence 0 even against a scoring
pipeline that would report an uptrend. -/
theorem c9_witness :
    (([] : List ℚ).length < 50) ∧
    MarketCycleDetector.detect_market_cycle MarketCycleDetector.initDetector (some [])
        true (fun st _ => (.uptrend, st)) = (.unknown, MarketCycleDetector.initDetector) ∧
    MarketCycleDetector.initDetector.confidenceScore = 0 := by
  have h := c9_short_history_unknown [] true (fun st _ => (.uptrend, st)) (by decide)
  exact ⟨by decide, h.1, h.2⟩
